import Mathlib

/-!
Shallow embedding of the LLM dispatch façade of `src/openrouter_backend.py`
(class `OpenRouterBackend`): the fallback dispatcher `generate_text`, the
client initialisation `_initialize_client`, the keyword-routed template
fallback `_fallback_response`, and the cursor operation `switch_model`.

The network is modelled by an oracle `env : Nat → Outcome` giving the outcome
of the n-th HTTP completion attempt of a call, and each run produces a trace
of `Event`s (one per completion attempt, plus one per `time.sleep(1)`), so
that control-flow properties of the dispatcher can be stated on traces.
-/

namespace Notebooker

/-- The parsed JSON body of a 200 response: either a list of choices (each
abstracted to its `message.content` string, the only field the code reads),
or a body on which `response.json()` / `data['choices'][0]` raises. -/
inductive Body where
  | choices (cs : List String)
  | malformed
deriving DecidableEq, Repr

/-- An HTTP response as classified by the code: a status code and a body. -/
structure HttpResp where
  status : Nat
  body : Body
deriving DecidableEq, Repr

/-- Outcome of one `self.client.post(...)` call: a response, or a raised
exception (timeout, DNS failure, connection reset, ...). -/
inductive Outcome where
  | resp (r : HttpResp)
  | exn
deriving DecidableEq, Repr

/-- Observable events of one `generate_text` call: a completion attempt
(recording the model cursor, the credential cursor and the outcome), or a
`time.sleep(1)`. -/
inductive Event where
  | attempt (modelIdx keyIdx : Nat) (o : Outcome)
  | sleep
deriving DecidableEq, Repr

/-- The mutable state of an `OpenRouterBackend` instance: the two ordered
pools, the two cursors, and whether `self.client` is non-`None`. -/
structure Backend where
  api_keys : List String
  models : List String
  current_model_index : Nat
  current_api_key_index : Nat
  client : Bool
deriving DecidableEq, Repr

/-- Result of the inner (credential) loop of `generate_text`: a successful
generation, or exit without success (by `break` or by exhausting the loop;
the code treats the two identically afterwards). -/
inductive InnerRes where
  | success (s : String)
  | failed
deriving DecidableEq, Repr

/-- The content extracted from a successful attempt outcome: `some c` iff the
outcome is a 200 response whose body parses with at least one choice, `c`
being `data['choices'][0]['message']['content']` (before `.strip()`). -/
def okContent : Outcome → Option String
  | .resp ⟨200, .choices (c :: _)⟩ => some c
  | _ => none

/-- Python `s.strip()`: drop leading and trailing whitespace (the ASCII
whitespace characters, which is what the code's LLM responses contain). -/
def pyStrip (s : String) : String :=
  String.mk
    (((s.data.dropWhile Char.isWhitespace).reverse.dropWhile
        Char.isWhitespace).reverse)

/-- Inner loop of `generate_text` (`for api_key_attempt in range(len(self.api_keys))`,
src/openrouter_backend.py lines 95-147).  Arguments: the oracle, `K` the
number of credentials, `mIdx` the (fixed) model cursor, then fuel (the
remaining iterations of the `range`), the credential cursor and the attempt
counter.  Returns the loop result, the final credential cursor, the final
attempt counter and the emitted events. -/
def inner (env : Nat → Outcome) (K : Nat) (mIdx : Nat) :
    Nat → Nat → Nat → InnerRes × Nat × Nat × List Event
  | 0, kIdx, ctr => (.failed, kIdx, ctr, [])
  | fuel + 1, kIdx, ctr =>
    let o := env ctr
    let ev := Event.attempt mIdx kIdx o
    match o with
    | .resp r =>
      if r.status = 200 then
        match r.body with
        | .choices (c :: _) => (.success (pyStrip c), kIdx, ctr + 1, [ev])
        | _ =>
          -- `response.json()` or `data['choices'][0]` raises: caught by the
          -- `except` branch, which advances the credential cursor
          let rec2 := inner env K mIdx fuel ((kIdx + 1) % K) (ctr + 1)
          (rec2.1, rec2.2.1, rec2.2.2.1, ev :: rec2.2.2.2)
      else if r.status = 401 then
        let rec2 := inner env K mIdx fuel ((kIdx + 1) % K) (ctr + 1)
        (rec2.1, rec2.2.1, rec2.2.2.1, ev :: rec2.2.2.2)
      else
        (.failed, kIdx, ctr + 1, [ev])
    | .exn =>
      let rec2 := inner env K mIdx fuel ((kIdx + 1) % K) (ctr + 1)
      (rec2.1, rec2.2.1, rec2.2.2.1, ev :: rec2.2.2.2)

/-- Outer loop of `generate_text` (`for model_attempt in range(len(self.models))`,
src/openrouter_backend.py lines 94-153).  Returns the generated text (if
any), the final model cursor, the final credential cursor and the events. -/
def outer (env : Nat → Outcome) (M K : Nat) :
    Nat → Nat → Nat → Nat → Option String × Nat × Nat × List Event
  | 0, mIdx, kIdx, _ctr => (none, mIdx, kIdx, [])
  | fuel + 1, mIdx, kIdx, ctr =>
    match inner env K mIdx K kIdx ctr with
    | (.success s, k2, _c2, evs) => (some s, mIdx, k2, evs)
    | (.failed, k2, c2, evs) =>
      let rec2 := outer env M K fuel ((mIdx + 1) % M) k2 c2
      (rec2.1, rec2.2.1, rec2.2.2.1, evs ++ Event.sleep :: rec2.2.2.2)

/-- Python `s.lower()` (ASCII case folding, which covers every string the
routing logic compares against). -/
def pyLower (s : String) : String := String.mk (s.data.map Char.toLower)

/-- Python substring containment `sub in s`, on character lists. -/
def containsSub (sub : List Char) : List Char → Bool
  | [] => sub.isEmpty
  | c :: t => sub.isPrefixOf (c :: t) || containsSub sub t

/-- Python `sub in s` on strings. -/
def strIn (sub s : String) : Bool := containsSub sub.data s.data

/-- `OpenRouterBackend._draft_section_template` (src/openrouter_backend.py
lines 300-341). -/
def _draft_section_template : String := "
# Section Draft

## Overview
This section covers the key aspects of the topic. The implementation follows standard engineering practices and includes proper documentation.

## Technical Details
- **Specifications**: [Add technical specifications]
- **Requirements**: [List requirements]
- **Constraints**: [Identify constraints]

## Implementation
The implementation approach includes:
1. Design phase
2. Development phase
3. Testing phase
4. Integration phase

## Testing
Testing procedures include:
- Unit testing
- Integration testing
- System testing
- Performance testing

## Results
Results show [describe results and analysis]

## Future Improvements
Potential improvements include:
- [Improvement 1]
- [Improvement 2]
- [Improvement 3]

[image 1] - System architecture diagram
[image 2] - Test results visualization

[TAG: robotics, engineering, documentation]
[COMMENT: This is a template draft - please customize with specific details]
"

/-- `OpenRouterBackend._rewrite_content_template` (src/openrouter_backend.py
lines 343-380). -/
def _rewrite_content_template : String := "
# Improved Section

## Enhanced Overview
This section has been improved for clarity and technical rigor. The content now follows best practices for engineering documentation.

## Refined Technical Details
The technical specifications have been clarified and expanded to provide comprehensive coverage of the topic.

## Structured Implementation
The implementation section has been reorganized for better readability and includes:
- Clear step-by-step procedures
- Detailed explanations
- Proper formatting

## Comprehensive Testing
Testing procedures have been enhanced with:
- Detailed test cases
- Expected outcomes
- Validation criteria

## Detailed Results
Results analysis has been improved with:
- Quantitative data
- Visual representations
- Statistical analysis

## Strategic Future Improvements
Future improvements are now prioritized and include:
- Short-term goals
- Long-term objectives
- Resource requirements

[TAG: improved, technical, comprehensive]
[COMMENT: Content has been rewritten for better clarity and technical accuracy]
"

/-- `OpenRouterBackend._generate_questions_template` (src/openrouter_backend.py
lines 382-400). -/
def _generate_questions_template : String := "
Based on the analysis, here are some targeted questions to help improve your engineering notebook:

1. **Technical Specifications**: Can you provide more detailed technical specifications for the components mentioned?

2. **Implementation Details**: What specific challenges did you encounter during implementation?

3. **Testing Results**: Do you have quantitative data from your testing procedures?

4. **Performance Metrics**: What performance metrics are most important for this system?

5. **Future Development**: What are your priorities for future improvements?

6. **Documentation**: Are there any diagrams or images that would help illustrate the concepts?

Please provide answers to these questions so I can help improve your documentation.
"

/-- `OpenRouterBackend._analyze_gaps_template` (src/openrouter_backend.py
lines 402-439). -/
def _analyze_gaps_template : String := "
# Gap Analysis Report

## Identified Gaps

### Missing Sections
- [List missing sections that should be included]

### Incomplete Content
- [List sections that need more detail]

### Technical Gaps
- [List areas lacking technical depth]

### Documentation Issues
- [List formatting or clarity issues]

## Recommendations

### Priority 1 (High)
- [Most critical gaps to address]

### Priority 2 (Medium)
- [Important but less critical gaps]

### Priority 3 (Low)
- [Nice-to-have improvements]

## Next Steps
1. Address Priority 1 gaps first
2. Gather additional information for incomplete sections
3. Review and improve technical content
4. Add supporting images and diagrams

This analysis will help guide the improvement of your engineering notebook.
"

/-- The canned response of the sections-count branch of `_fallback_response`
(src/openrouter_backend.py line 236). -/
def _sections_count_response : String := "I can see you have 0 sections in your project right now. You can create your first section by clicking the '+ Create First Section' button on the right, or ask me to help you plan what sections you need."

/-- The canned response of the create-sections branch of `_fallback_response`
(src/openrouter_backend.py lines 238-250). -/
def _create_sections_response : String := "I'll create the standard VEX engineering notebook sections for you now!

Standard sections:
- Project overview & goals
- Design process & brainstorming
- Technical specifications
- CAD models & drawings
- Programming & code
- Testing & iterations
- Competition results
- Future improvements

Creating your sections..."

/-- The canned response of the VEX-team branch of `_fallback_response`
(src/openrouter_backend.py lines 253-269). -/
def _vex_team_response : String := "Perfect! Let's create your VEX team engineering notebook.

Quick questions:
1. What VEX game/challenge?
2. Team size?
3. Main robot goals?
4. Timeline?

Standard sections:
- Team overview & goals
- Design process & brainstorming
- Technical specs & CAD
- Programming & code
- Testing & results
- Competition analysis

Want me to create all sections now?"

/-- The canned response of the generic-VEX branch of `_fallback_response`
(src/openrouter_backend.py lines 271-288). -/
def _vex_generic_response : String := "Great! Let's build your VEX engineering notebook.

Quick questions:
1. What VEX project type?
2. Main goals?
3. Timeline?

Standard sections:
- Project overview & goals
- Design process & brainstorming
- Technical specifications
- CAD models & drawings
- Programming & code
- Testing & iterations
- Competition results
- Future improvements

Want me to create all sections now?"

/-- The default response of `_fallback_response` when no keyword rule matches
(src/openrouter_backend.py line 298). -/
def _default_fallback_response : String := "I understand you need help with your engineering notebook. Please provide more specific instructions."

/-- `OpenRouterBackend._fallback_response` (src/openrouter_backend.py lines
232-298): keyword routing over the lowercased prompt, first match wins. -/
def _fallback_response (prompt : String) : String :=
  let lp := pyLower prompt
  if strIn "how many sections" lp || strIn "sections do i have" lp then
    _sections_count_response
  else if strIn "create sections" lp || strIn "create them" lp || strIn "make sections" lp then
    _create_sections_response
  else if strIn "vex" lp || strIn "en" lp || strIn "engineering notebook" lp then
    if strIn "team" lp then _vex_team_response else _vex_generic_response
  else if strIn "draft" lp && strIn "section" lp then
    _draft_section_template
  else if strIn "rewrite" lp || strIn "improve" lp then
    _rewrite_content_template
  else if strIn "question" lp || strIn "ask" lp then
    _generate_questions_template
  else if strIn "analyze" lp || strIn "gap" lp then
    _analyze_gaps_template
  else
    _default_fallback_response

/-- The disjunction of every keyword condition tested before the
analyze/gap branch of `_fallback_response` (the rules that can shadow it). -/
def matchesEarlierRule (prompt : String) : Bool :=
  let lp := pyLower prompt
  strIn "how many sections" lp || strIn "sections do i have" lp ||
  strIn "create sections" lp || strIn "create them" lp || strIn "make sections" lp ||
  strIn "vex" lp || strIn "en" lp || strIn "engineering notebook" lp ||
  (strIn "draft" lp && strIn "section" lp) ||
  strIn "rewrite" lp || strIn "improve" lp ||
  strIn "question" lp || strIn "ask" lp

/-- The string returned by `generate_text` when `self.client is None`
(src/openrouter_backend.py line 91). -/
def _client_not_available : String := "OpenRouter client not available"

/-- `OpenRouterBackend.generate_text` (src/openrouter_backend.py lines
88-157), instrumented with the event trace.  Returns the generated string,
the backend state after the call, and the trace. -/
def generate_text (env : Nat → Outcome) (b : Backend) (prompt : String) :
    String × Backend × List Event :=
  if b.client then
    match outer env b.models.length b.api_keys.length b.models.length
        b.current_model_index b.current_api_key_index 0 with
    | (some s, m2, k2, evs) =>
      (s, { b with current_model_index := m2, current_api_key_index := k2 }, evs)
    | (none, m2, k2, evs) =>
      (_fallback_response prompt,
       { b with current_model_index := m2, current_api_key_index := k2 }, evs)
  else
    (_client_not_available, b, [])

/-- The index-scanning loop of `_initialize_client` (src/openrouter_backend.py
lines 59-82): `test i` tells whether the probe request with key `i` returns
status 200 (an exception or a non-200 both count as failure). -/
def firstWorkingKey (test : Nat → Bool) : Nat → Nat → Option Nat
  | _i, 0 => none
  | i, n + 1 => if test i then some i else firstWorkingKey test (i + 1) n

/-- `OpenRouterBackend._initialize_client` (src/openrouter_backend.py lines
51-86): returns whether `self.client` ends up non-`None`, and the resulting
`current_api_key_index` (the first working key, or the initial 0). -/
def _initialize_client (keys : List String) (test : Nat → Bool) : Bool × Nat :=
  if keys.isEmpty then (false, 0)
  else
    match firstWorkingKey test 0 keys.length with
    | some i => (true, i)
    | none => (false, 0)

/-- The state built by `OpenRouterBackend.__init__` from a given key pool and
model list (src/openrouter_backend.py lines 22-49): cursors start at 0, then
`_initialize_client` runs. -/
def mkBackend (keys models : List String) (test : Nat → Bool) : Backend :=
  { api_keys := keys
    models := models
    current_model_index := 0
    current_api_key_index := (_initialize_client keys test).2
    client := (_initialize_client keys test).1 }

/-- `OpenRouterBackend.switch_model` (src/openrouter_backend.py lines
453-459).  The Python argument may be any integer, hence `Int`. -/
def switch_model (b : Backend) (model_index : Int) : Bool × Backend :=
  if 0 ≤ model_index ∧ model_index < (b.models.length : Int) then
    (true, { b with current_model_index := model_index.toNat })
  else
    (false, b)

/-- The (model cursor, credential cursor) pairs of the attempts of a trace. -/
def attemptPairs : List Event → List (Nat × Nat)
  | [] => []
  | .attempt m k _ :: t => (m, k) :: attemptPairs t
  | .sleep :: t => attemptPairs t

/-- Whether an event is a completion attempt whose outcome is a parseable
200 response with at least one choice. -/
def attemptOk : Event → Bool
  | .attempt _ _ o => (okContent o).isSome
  | .sleep => false

/-- Number of `sleep` events of a trace. -/
def countSleeps : List Event → Nat
  | [] => 0
  | .sleep :: t => countSleeps t + 1
  | .attempt _ _ _ :: t => countSleeps t

/-- How `generate_text` reacts to one attempt outcome: return the text
(status 200 and a parseable choice), advance the credential cursor and
`continue` (status 401, or any raised exception, the latter covering both
transport errors and 200 responses with unusable bodies), or `break` out of
the credential loop (any other status). -/
inductive AttemptClass where
  | success (c : String)
  | advanceKey
  | breakLoop
deriving DecidableEq, Repr

/-- Classification of an outcome, following the branch structure of
src/openrouter_backend.py lines 127-147. -/
def classify : Outcome → AttemptClass
  | .resp r =>
    if r.status = 200 then
      match r.body with
      | .choices (c :: _) => .success c
      | _ => .advanceKey
    else if r.status = 401 then .advanceKey
    else .breakLoop
  | .exn => .advanceKey

/-- Relation between adjacent trace events: two directly adjacent attempts
(no sleep between them) always target the same model, with the credential
cursor advanced by one modulo `K`. -/
def AdjRel (K : Nat) : Event → Event → Prop := fun e1 e2 =>
  ∀ m k o m2 k2 o2, e1 = .attempt m k o → e2 = .attempt m2 k2 o2 →
    m2 = m ∧ k2 = (k + 1) % K

/-! Concrete fixtures used by counterexamples and witnesses. -/

/-- Fixture: two credentials, two models, client initialised. -/
def twoByTwo : Backend :=
  { api_keys := ["k1", "k2"], models := ["m1", "m2"]
    current_model_index := 0, current_api_key_index := 0, client := true }

/-- Fixture: one credential, two models. -/
def oneKey : Backend :=
  { api_keys := ["k1"], models := ["m1", "m2"]
    current_model_index := 0, current_api_key_index := 0, client := true }

/-- Fixture: two credentials, one model. -/
def oneModel : Backend :=
  { api_keys := ["k1", "k2"], models := ["m1"]
    current_model_index := 0, current_api_key_index := 0, client := true }

/-- Oracle: first attempt raises a transport error, second returns 200. -/
def envNetThenOk : Nat → Outcome := fun n =>
  if n = 0 then .exn
  else if n = 1 then .resp ⟨200, .choices ["x"]⟩ else .exn

/-- Oracle: first attempt returns 401, second returns 200 with "hello". -/
def envAuthThenOk : Nat → Outcome := fun n =>
  if n = 0 then .resp ⟨401, .malformed⟩
  else if n = 1 then .resp ⟨200, .choices ["hello"]⟩ else .exn

/-- Oracle: every attempt returns 401. -/
def envAllAuth : Nat → Outcome := fun _ => .resp ⟨401, .malformed⟩

/-- Oracle: every attempt returns 500. -/
def envAll500 : Nat → Outcome := fun _ => .resp ⟨500, .malformed⟩

/-- Oracle: every attempt returns 200 with one choice needing trimming. -/
def envOk : Nat → Outcome := fun _ => .resp ⟨200, .choices [" hi "]⟩

/-- One externally triggered operation on a backend: a `generate_text` call
(with its oracle and prompt) or a `switch_model` call. -/
inductive Op where
  | gen (env : Nat → Outcome) (prompt : String)
  | switch_to (i : Int)

/-- Applying an operation to the backend state. -/
def applyOp (b : Backend) : Op → Backend
  | .gen env prompt => (generate_text env b prompt).2.1
  | .switch_to i => (switch_model b i).2

/-- Running a sequence of operations. -/
def runOps : Backend → List Op → Backend
  | b, [] => b
  | b, op :: ops => runOps (applyOp b op) ops

/-- A concrete operation sequence for the C9 witness. -/
def opsFixture : List Op :=
  [.gen envAllAuth "p", .switch_to 1, .gen envNetThenOk "q", .switch_to (-3)]

theorem classify_success_iff (o : Outcome) (c : String) :
    classify o = .success c ↔ okContent o = some c := by
  rcases o with ⟨st, body⟩ | _
  · by_cases h200 : st = 200
    · subst h200
      rcases body with ⟨cs⟩ | _
      · rcases cs with _ | ⟨c0, cs⟩ <;> simp [classify, okContent]
      · simp [classify, okContent]
    · by_cases h401 : st = 401 <;> simp [classify, okContent, h200, h401]
  · simp [classify, okContent]

theorem classify_break_of_status {r : HttpResp}
    (h200 : r.status ≠ 200) (h401 : r.status ≠ 401) :
    classify (.resp r) = .breakLoop := by
  simp [classify, h200, h401]

theorem classify_resp_of_break {o : Outcome} (h : classify o = .breakLoop) :
    ∃ r, o = .resp r ∧ r.status ≠ 200 ∧ r.status ≠ 401 := by
  rcases o with ⟨st, body⟩ | _
  · by_cases h200 : st = 200
    · subst h200
      rcases body with ⟨cs⟩ | _
      · rcases cs with _ | ⟨c0, cs⟩ <;> simp [classify] at h
      · simp [classify] at h
    · by_cases h401 : st = 401
      · simp [classify, h200, h401] at h
      · exact ⟨_, rfl, h200, h401⟩
  · simp [classify] at h

theorem inner_step_success {env : Nat → Outcome} {K mIdx fuel kIdx ctr : Nat} {c : String}
    (h : classify (env ctr) = .success c) :
    inner env K mIdx (fuel + 1) kIdx ctr =
      (.success (pyStrip c), kIdx, ctr + 1, [.attempt mIdx kIdx (env ctr)]) := by
  rcases ho : env ctr with ⟨st, body⟩ | _
  · rw [ho] at h
    by_cases h200 : st = 200
    · subst h200
      rcases body with ⟨cs⟩ | _
      · rcases cs with _ | ⟨c0, cs⟩
        · simp [classify] at h
        · simp [classify] at h
          subst h
          simp [inner, ho]
      · simp [classify] at h
    · by_cases h401 : st = 401 <;> simp [classify, h200, h401] at h
  · rw [ho] at h; simp [classify] at h

theorem inner_step_advance {env : Nat → Outcome} {K mIdx fuel kIdx ctr : Nat}
    (h : classify (env ctr) = .advanceKey) :
    inner env K mIdx (fuel + 1) kIdx ctr =
      ((inner env K mIdx fuel ((kIdx + 1) % K) (ctr + 1)).1,
       (inner env K mIdx fuel ((kIdx + 1) % K) (ctr + 1)).2.1,
       (inner env K mIdx fuel ((kIdx + 1) % K) (ctr + 1)).2.2.1,
       .attempt mIdx kIdx (env ctr) ::
         (inner env K mIdx fuel ((kIdx + 1) % K) (ctr + 1)).2.2.2) := by
  rcases ho : env ctr with ⟨st, body⟩ | _
  · rw [ho] at h
    by_cases h200 : st = 200
    · subst h200
      rcases body with ⟨cs⟩ | _
      · rcases cs with _ | ⟨c0, cs⟩
        · simp [inner, ho]
        · simp [classify] at h
      · simp [inner, ho]
    · by_cases h401 : st = 401
      · simp [inner, ho, h200, h401]
      · simp [classify, h200, h401] at h
  · simp [inner, ho]

theorem inner_step_break {env : Nat → Outcome} {K mIdx fuel kIdx ctr : Nat}
    (h : classify (env ctr) = .breakLoop) :
    inner env K mIdx (fuel + 1) kIdx ctr =
      (.failed, kIdx, ctr + 1, [.attempt mIdx kIdx (env ctr)]) := by
  rcases ho : env ctr with ⟨st, body⟩ | _
  · rw [ho] at h
    by_cases h200 : st = 200
    · subst h200
      rcases body with ⟨cs⟩ | _
      · rcases cs with _ | ⟨c0, cs⟩ <;> simp [classify] at h
      · simp [classify] at h
    · by_cases h401 : st = 401
      · simp [classify, h200, h401] at h
      · simp [inner, ho, h200, h401]
  · rw [ho] at h; simp [classify] at h

/-- Decomposing `pre ++ x :: rest = [a]`. -/
theorem singleton_split {α : Type} {pre rest : List α} {x a : α}
    (h : pre ++ x :: rest = [a]) : pre = [] ∧ x = a ∧ rest = [] := by
  cases pre with
  | nil => simpa using h
  | cons p ps =>
    exfalso
    simp only [List.cons_append, List.cons.injEq] at h
    rcases h with ⟨-, h⟩
    simp at h

/-- Every event emitted by the inner loop is an attempt with the loop's
(fixed) model cursor: the model cursor never moves inside the credential
loop. -/
theorem inner_events_model (env : Nat → Outcome) (K mIdx : Nat) :
    ∀ fuel kIdx ctr, ∀ e ∈ (inner env K mIdx fuel kIdx ctr).2.2.2,
      ∃ k o, e = .attempt mIdx k o := by
  intro fuel
  induction fuel with
  | zero => intro kIdx ctr e he; simp [inner] at he
  | succ n ih =>
    intro kIdx ctr e he
    rcases hc : classify (env ctr) with c | _ | _
    · rw [inner_step_success hc] at he
      simp only [List.mem_singleton] at he
      exact ⟨kIdx, env ctr, he⟩
    · rw [inner_step_advance hc] at he
      rcases List.mem_cons.mp he with he | he
      · exact ⟨kIdx, env ctr, he⟩
      · exact ih _ _ e he
    · rw [inner_step_break hc] at he
      simp only [List.mem_singleton] at he
      exact ⟨kIdx, env ctr, he⟩

/-- With fuel left, the inner loop's first event is the attempt at the
current cursors with the oracle's next outcome. -/
theorem inner_head (env : Nat → Outcome) (K mIdx fuel kIdx ctr : Nat) :
    ∃ t, (inner env K mIdx (fuel + 1) kIdx ctr).2.2.2 =
      .attempt mIdx kIdx (env ctr) :: t := by
  rcases hc : classify (env ctr) with c | _ | _
  · exact ⟨[], by rw [inner_step_success hc]⟩
  · exact ⟨_, by rw [inner_step_advance hc]⟩
  · exact ⟨[], by rw [inner_step_break hc]⟩

/-- The credential cursor returned by the inner loop stays in range. -/
theorem inner_key_range (env : Nat → Outcome) (K mIdx : Nat) :
    ∀ fuel kIdx ctr, kIdx < K → (inner env K mIdx fuel kIdx ctr).2.1 < K := by
  intro fuel
  induction fuel with
  | zero => intro kIdx ctr hk; simpa [inner] using hk
  | succ n ih =>
    intro kIdx ctr hk
    rcases hc : classify (env ctr) with c | _ | _
    · rw [inner_step_success hc]; exact hk
    · rw [inner_step_advance hc]
      exact ih _ _ (Nat.mod_lt _ (lt_of_le_of_lt (Nat.zero_le kIdx) hk))
    · rw [inner_step_break hc]; exact hk

/-- If the inner loop's trace contains an attempt whose outcome is a 200
response with a parseable choice, that attempt is the trace's last event and
the loop result is the trimmed content of the first choice. -/
theorem inner_success_mem (env : Nat → Outcome) (K mIdx : Nat) :
    ∀ fuel kIdx ctr m k o c,
      .attempt m k o ∈ (inner env K mIdx fuel kIdx ctr).2.2.2 →
      okContent o = some c →
      (inner env K mIdx fuel kIdx ctr).1 = .success (pyStrip c) ∧
        ∃ pre, (inner env K mIdx fuel kIdx ctr).2.2.2 =
          pre ++ [.attempt m k o] := by
  intro fuel
  induction fuel with
  | zero => intro kIdx ctr m k o c he _; simp [inner] at he
  | succ n ih =>
    intro kIdx ctr m k o c he hok
    rcases hc : classify (env ctr) with c0 | _ | _
    · rw [inner_step_success hc] at he ⊢
      simp only [List.mem_singleton, Event.attempt.injEq] at he
      rcases he with ⟨hm, hk, hoe⟩
      have : okContent (env ctr) = some c := hoe ▸ hok
      have hcc : c0 = c := by
        have h2 := (classify_success_iff (env ctr) c).mpr this
        rw [hc] at h2
        exact (AttemptClass.success.injEq _ _).mp h2
      subst hcc
      exact ⟨rfl, [], by simp [hm, hk, hoe]⟩
    · rw [inner_step_advance hc] at he ⊢
      rcases List.mem_cons.mp he with he | he
      · exfalso
        have : okContent (env ctr) = some c := by
          injection he with hm hk hoe
          exact hoe ▸ hok
        rw [← classify_success_iff] at this
        rw [hc] at this
        exact absurd this (by simp)
      · rcases ih _ _ m k o c he hok with ⟨hres, pre, hpre⟩
        refine ⟨hres, .attempt mIdx kIdx (env ctr) :: pre, ?_⟩
        simp [hpre]
    · rw [inner_step_break hc] at he ⊢
      exfalso
      simp only [List.mem_singleton, Event.attempt.injEq] at he
      rcases he with ⟨-, -, hoe⟩
      have : okContent (env ctr) = some c := hoe ▸ hok
      rw [← classify_success_iff] at this
      rw [hc] at this
      exact absurd this (by simp)

/-- If the inner loop reports success, some attempt of its trace had a 200
response with a parseable choice, and the result is its trimmed content. -/
theorem inner_success_res (env : Nat → Outcome) (K mIdx : Nat) :
    ∀ fuel kIdx ctr s,
      (inner env K mIdx fuel kIdx ctr).1 = .success s →
      ∃ m k o c, .attempt m k o ∈ (inner env K mIdx fuel kIdx ctr).2.2.2 ∧
        okContent o = some c ∧ s = pyStrip c := by
  intro fuel
  induction fuel with
  | zero => intro kIdx ctr s hs; simp [inner] at hs
  | succ n ih =>
    intro kIdx ctr s hs
    rcases hc : classify (env ctr) with c0 | _ | _
    · rw [inner_step_success hc] at hs ⊢
      injection hs with hs
      exact ⟨mIdx, kIdx, env ctr, c0, by simp,
        (classify_success_iff (env ctr) c0).mp hc, hs.symm⟩
    · rw [inner_step_advance hc] at hs ⊢
      rcases ih _ _ s hs with ⟨m, k, o, c, hmem, hok, hsc⟩
      exact ⟨m, k, o, c, List.mem_cons_of_mem _ hmem, hok, hsc⟩
    · rw [inner_step_break hc] at hs
      exact absurd hs (by simp)

/-- An attempt of the inner trace answered with a status that is neither 200
nor 401 is the trace's last event (the loop `break`s), the loop result is
`failed`, and the credential cursor is left at that attempt's value. -/
theorem inner_break_split (env : Nat → Outcome) (K mIdx : Nat) :
    ∀ fuel kIdx ctr pre m k r rest,
      (inner env K mIdx fuel kIdx ctr).2.2.2 =
        pre ++ .attempt m k (.resp r) :: rest →
      r.status ≠ 200 → r.status ≠ 401 →
      rest = [] ∧ (inner env K mIdx fuel kIdx ctr).1 = .failed ∧
        (inner env K mIdx fuel kIdx ctr).2.1 = k := by
  intro fuel
  induction fuel with
  | zero =>
    intro kIdx ctr pre m k r rest hsplit _ _
    simp only [inner] at hsplit
    exact absurd hsplit.symm (by simp)
  | succ n ih =>
    intro kIdx ctr pre m k r rest hsplit h200 h401
    rcases hc : classify (env ctr) with c0 | _ | _
    · rw [inner_step_success hc] at hsplit
      rcases singleton_split hsplit.symm with ⟨-, hx, -⟩
      exfalso
      injection hx with hm hk hoe
      have := classify_break_of_status h200 h401
      rw [hoe, hc] at this
      exact absurd this (by simp)
    · rw [inner_step_advance hc] at hsplit ⊢
      cases pre with
      | nil =>
        exfalso
        simp only [List.nil_append, List.cons.injEq] at hsplit
        rcases hsplit with ⟨hx, -⟩
        injection hx with hm hk hoe
        have := classify_break_of_status h200 h401
        rw [← hoe, hc] at this
        exact absurd this (by simp)
      | cons p ps =>
        simp only [List.cons_append, List.cons.injEq] at hsplit
        rcases hsplit with ⟨-, hsplit⟩
        exact ih _ _ ps m k r rest hsplit h200 h401
    · rw [inner_step_break hc] at hsplit ⊢
      rcases singleton_split hsplit.symm with ⟨-, hx, hrest⟩
      injection hx with hm hk hoe
      exact ⟨hrest, rfl, hk.symm⟩

theorem inner_chain (env : Nat → Outcome) (K mIdx : Nat) :
    ∀ fuel kIdx ctr,
      List.Chain' (AdjRel K) (inner env K mIdx fuel kIdx ctr).2.2.2 := by
  intro fuel
  induction fuel with
  | zero => intro kIdx ctr; simp [inner]
  | succ n ih =>
    intro kIdx ctr
    rcases hc : classify (env ctr) with c | _ | _
    · rw [inner_step_success hc]; simp
    · rw [inner_step_advance hc]
      refine List.chain'_cons'.mpr ⟨?_, ih _ _⟩
      intro y hy
      cases n with
      | zero => simp [inner] at hy
      | succ n2 =>
        rcases inner_head env K mIdx n2 ((kIdx + 1) % K) (ctr + 1) with ⟨t, ht⟩
        rw [ht] at hy
        simp only [List.head?_cons, Option.mem_def, Option.some.injEq] at hy
        subst hy
        intro m k o m2 k2 o2 h1 h2
        injection h1 with hm hk ho
        injection h2 with hm2 hk2 ho2
        subst hm hk hm2 hk2
        exact ⟨rfl, rfl⟩
    · rw [inner_step_break hc]; simp

theorem inner_len (env : Nat → Outcome) (K mIdx : Nat) :
    ∀ fuel kIdx ctr, (inner env K mIdx fuel kIdx ctr).2.2.2.length ≤ fuel := by
  intro fuel
  induction fuel with
  | zero => intro kIdx ctr; simp [inner]
  | succ n ih =>
    intro kIdx ctr
    rcases hc : classify (env ctr) with c | _ | _
    · rw [inner_step_success hc]; simp
    · rw [inner_step_advance hc]
      simpa using Nat.succ_le_succ (ih _ _)
    · rw [inner_step_break hc]; simp

theorem inner_no_sleep (env : Nat → Outcome) (K mIdx fuel kIdx ctr : Nat) :
    countSleeps (inner env K mIdx fuel kIdx ctr).2.2.2 = 0 := by
  induction fuel generalizing kIdx ctr with
  | zero => simp [inner, countSleeps]
  | succ n ih =>
    rcases hc : classify (env ctr) with c | _ | _
    · rw [inner_step_success hc]; simp [countSleeps]
    · rw [inner_step_advance hc]
      simpa [countSleeps] using ih ((kIdx + 1) % K) (ctr + 1)
    · rw [inner_step_break hc]; simp [countSleeps]

/-- Within one credential loop the attempted (model, credential) pairs are
exactly `(mIdx, (kIdx + j) % K)` for successive `j`. -/
theorem inner_pairs (env : Nat → Outcome) (K mIdx : Nat) :
    ∀ fuel kIdx ctr, kIdx < K →
      attemptPairs (inner env K mIdx fuel kIdx ctr).2.2.2 =
        (List.range (inner env K mIdx fuel kIdx ctr).2.2.2.length).map
          (fun j => (mIdx, (kIdx + j) % K)) := by
  intro fuel
  induction fuel with
  | zero => intro kIdx ctr _; simp [inner, attemptPairs]
  | succ n ih =>
    intro kIdx ctr hk
    have hk0 : kIdx % K = kIdx := Nat.mod_eq_of_lt hk
    rcases hc : classify (env ctr) with c | _ | _
    · rw [inner_step_success hc]
      simp [attemptPairs, List.range_succ, hk0]
    · rw [inner_step_advance hc]
      have hk1 : (kIdx + 1) % K < K :=
        Nat.mod_lt _ (lt_of_le_of_lt (Nat.zero_le kIdx) hk)
      have := ih ((kIdx + 1) % K) (ctr + 1) hk1
      simp only [attemptPairs, List.length_cons, this,
        List.range_succ_eq_map, List.map_cons, List.map_map]
      congr 1
      · simp [hk0]
      · apply List.map_congr_left
        intro j _
        simp only [Function.comp_apply]
        rw [Nat.mod_add_mod]
        congr 2
        omega
    · rw [inner_step_break hc]
      simp [attemptPairs, List.range_succ, hk0]

theorem attemptPairs_append (a b : List Event) :
    attemptPairs (a ++ b) = attemptPairs a ++ attemptPairs b := by
  induction a with
  | nil => simp [attemptPairs]
  | cons e t ih => cases e <;> simp [attemptPairs, ih]

theorem attemptPairs_length_le (l : List Event) :
    (attemptPairs l).length ≤ l.length := by
  induction l with
  | nil => simp [attemptPairs]
  | cons e t ih => cases e <;> (simp [attemptPairs]; omega)

theorem countSleeps_append (a b : List Event) :
    countSleeps (a ++ b) = countSleeps a + countSleeps b := by
  induction a with
  | nil => simp [countSleeps]
  | cons e t ih =>
    cases e with
    | attempt m k o => simp [countSleeps, ih]
    | sleep =>
      simp [countSleeps, ih]
      omega

/-- The pairs attempted by one credential loop are pairwise distinct as soon
as its fuel is at most `K` (which it always is: the loop runs `K` times). -/
theorem inner_pairs_nodup (env : Nat → Outcome) (K mIdx : Nat)
    (fuel kIdx ctr : Nat) (hk : kIdx < K) (hfuel : fuel ≤ K) :
    (attemptPairs (inner env K mIdx fuel kIdx ctr).2.2.2).Nodup := by
  rw [inner_pairs env K mIdx fuel kIdx ctr hk]
  have hlen : (inner env K mIdx fuel kIdx ctr).2.2.2.length ≤ K :=
    le_trans (inner_len env K mIdx fuel kIdx ctr) hfuel
  apply List.Nodup.map_on
  · intro j1 h1 j2 h2 hpair
    simp only [List.mem_range] at h1 h2
    have hmod : (kIdx + j1) % K = (kIdx + j2) % K := by
      simpa using congrArg Prod.snd hpair
    have hj1 : j1 < K := lt_of_lt_of_le h1 hlen
    have hj2 : j2 < K := lt_of_lt_of_le h2 hlen
    have : j1 % K = j2 % K := Nat.ModEq.add_left_cancel' kIdx hmod
    rwa [Nat.mod_eq_of_lt hj1, Nat.mod_eq_of_lt hj2] at this
  · exact List.nodup_range _

/-- Final model cursor of the outer loop stays in range. -/
theorem outer_m_range (env : Nat → Outcome) (M K : Nat) :
    ∀ fuel mIdx kIdx ctr, mIdx < M →
      (outer env M K fuel mIdx kIdx ctr).2.1 < M := by
  intro fuel
  induction fuel with
  | zero => intro mIdx kIdx ctr hm; simpa [outer] using hm
  | succ n ih =>
    intro mIdx kIdx ctr hm
    simp only [outer]
    rcases hI : inner env K mIdx K kIdx ctr with ⟨res, k2, c2, evs⟩
    cases res with
    | success s => simpa using hm
    | failed =>
      simp only
      exact ih _ _ _ (Nat.mod_lt _ (lt_of_le_of_lt (Nat.zero_le mIdx) hm))

/-- Final credential cursor of the outer loop stays in range. -/
theorem outer_k_range (env : Nat → Outcome) (M K : Nat) :
    ∀ fuel mIdx kIdx ctr, kIdx < K →
      (outer env M K fuel mIdx kIdx ctr).2.2.1 < K := by
  intro fuel
  induction fuel with
  | zero => intro mIdx kIdx ctr hk; simpa [outer] using hk
  | succ n ih =>
    intro mIdx kIdx ctr hk
    have hk2 := inner_key_range env K mIdx K kIdx ctr hk
    simp only [outer]
    rcases hI : inner env K mIdx K kIdx ctr with ⟨res, k2, c2, evs⟩
    rw [hI] at hk2
    cases res with
    | success s => simpa using hk2
    | failed => simp only; exact ih _ _ _ hk2

/-- Adjacent attempts of a full dispatch trace share the model cursor and
advance the credential cursor by one modulo `K`. -/
theorem outer_chain (env : Nat → Outcome) (M K : Nat) :
    ∀ fuel mIdx kIdx ctr,
      List.Chain' (AdjRel K) (outer env M K fuel mIdx kIdx ctr).2.2.2 := by
  intro fuel
  induction fuel with
  | zero => intro mIdx kIdx ctr; simp [outer]
  | succ n ih =>
    intro mIdx kIdx ctr
    have hchain := inner_chain env K mIdx K kIdx ctr
    simp only [outer]
    rcases hI : inner env K mIdx K kIdx ctr with ⟨res, k2, c2, evs⟩
    rw [hI] at hchain
    cases res with
    | success s => simpa using hchain
    | failed =>
      simp only
      refine List.chain'_append.mpr ⟨hchain, ?_, ?_⟩
      · refine List.chain'_cons'.mpr ⟨?_, ih _ _ _⟩
        intro y _ m k o m2 k2' o2 h1 _
        exact absurd h1 (by simp)
      · intro x _ y hy
        rw [List.head?_cons, Option.mem_def, Option.some.injEq] at hy
        subst hy
        intro m k o m2 k2' o2 _ h2
        exact absurd h2 (by simp)

/-- If a dispatch trace contains an attempt with a parseable 200 response,
the outer loop returns its trimmed content and that attempt closes the
trace. -/
theorem outer_success_mem (env : Nat → Outcome) (M K : Nat) :
    ∀ fuel mIdx kIdx ctr m k o c,
      .attempt m k o ∈ (outer env M K fuel mIdx kIdx ctr).2.2.2 →
      okContent o = some c →
      (outer env M K fuel mIdx kIdx ctr).1 = some (pyStrip c) ∧
        ∃ pre, (outer env M K fuel mIdx kIdx ctr).2.2.2 =
          pre ++ [.attempt m k o] := by
  intro fuel
  induction fuel with
  | zero => intro mIdx kIdx ctr m k o c he _; simp [outer] at he
  | succ n ih =>
    intro mIdx kIdx ctr m k o c he hok
    have hmem := inner_success_mem env K mIdx K kIdx ctr m k o c
    simp only [outer] at he ⊢
    rcases hI : inner env K mIdx K kIdx ctr with ⟨res, k2, c2, evs⟩
    rw [hI] at hmem he
    cases res with
    | success s =>
      simp only at he ⊢
      rcases hmem he hok with ⟨hres, pre, hpre⟩
      injection hres with hres
      exact ⟨by rw [hres], pre, hpre⟩
    | failed =>
      simp only at he ⊢
      rcases List.mem_append.mp he with he | he
      · rcases hmem he hok with ⟨hres, -⟩
        exact absurd hres (by simp)
      · rcases List.mem_cons.mp he with he | he
        · exact absurd he (by simp)
        · rcases ih _ _ _ m k o c he hok with ⟨hres, pre, hpre⟩
          refine ⟨hres, evs ++ Event.sleep :: pre, ?_⟩
          rw [hpre]
          simp

/-- If the outer loop returns text, some attempt of the trace had a
parseable 200 response whose trimmed content is that text. -/
theorem outer_success_res (env : Nat → Outcome) (M K : Nat) :
    ∀ fuel mIdx kIdx ctr s,
      (outer env M K fuel mIdx kIdx ctr).1 = some s →
      ∃ m k o c, .attempt m k o ∈ (outer env M K fuel mIdx kIdx ctr).2.2.2 ∧
        okContent o = some c ∧ s = pyStrip c := by
  intro fuel
  induction fuel with
  | zero => intro mIdx kIdx ctr s hs; simp [outer] at hs
  | succ n ih =>
    intro mIdx kIdx ctr s hs
    have hres := inner_success_res env K mIdx K kIdx ctr s
    simp only [outer] at hs ⊢
    rcases hI : inner env K mIdx K kIdx ctr with ⟨res, k2, c2, evs⟩
    rw [hI] at hres hs
    cases res with
    | success s0 =>
      simp only at hs ⊢
      injection hs with hs
      subst hs
      rcases hres rfl with ⟨m, k, o, c, hmem, hok, hsc⟩
      exact ⟨m, k, o, c, hmem, hok, hsc⟩
    | failed =>
      simp only at hs ⊢
      rcases ih _ _ _ s hs with ⟨m, k, o, c, hmem, hok, hsc⟩
      exact ⟨m, k, o, c, by simp [List.mem_append, hmem], hok, hsc⟩

/-- A failed dispatch sleeps exactly once per outer (model) iteration. -/
theorem outer_sleeps_failed (env : Nat → Outcome) (M K : Nat) :
    ∀ fuel mIdx kIdx ctr,
      (outer env M K fuel mIdx kIdx ctr).1 = none →
      countSleeps (outer env M K fuel mIdx kIdx ctr).2.2.2 = fuel := by
  intro fuel
  induction fuel with
  | zero => intro mIdx kIdx ctr _; simp [outer, countSleeps]
  | succ n ih =>
    intro mIdx kIdx ctr hnone
    have hns := inner_no_sleep env K mIdx K kIdx ctr
    simp only [outer] at hnone ⊢
    rcases hI : inner env K mIdx K kIdx ctr with ⟨res, k2, c2, evs⟩
    rw [hI] at hns hnone
    cases res with
    | success s => simp at hnone
    | failed =>
      simp only at hnone ⊢
      rw [countSleeps_append, hns, countSleeps, ih _ _ _ hnone]
      omega

/-- With fuel and a non-empty credential pool the outer loop's first event is
the attempt at the current cursors. -/
theorem outer_head (env : Nat → Outcome) (M K fuel mIdx kIdx ctr : Nat)
    (hK : 0 < K) :
    ∃ o t, (outer env M K (fuel + 1) mIdx kIdx ctr).2.2.2 =
      .attempt mIdx kIdx o :: t := by
  obtain ⟨K2, rfl⟩ : ∃ K2, K = K2 + 1 := ⟨K - 1, by omega⟩
  obtain ⟨t0, ht0⟩ := inner_head env (K2 + 1) mIdx K2 kIdx ctr
  simp only [outer]
  rcases hI : inner env (K2 + 1) mIdx (K2 + 1) kIdx ctr with ⟨res, k2, c2, evs⟩
  rw [hI] at ht0
  simp only at ht0
  cases res with
  | success s => exact ⟨env ctr, t0, by simp [ht0]⟩
  | failed =>
    refine ⟨env ctr, t0 ++ Event.sleep ::
      (outer env M (K2 + 1) fuel ((mIdx + 1) % M) k2 c2).2.2.2, ?_⟩
    simp [ht0]

/-- After an attempt answered with a status other than 200 and 401, the
dispatcher sleeps, and the next attempt (if any) targets the next model
modulo `M` with the credential cursor unchanged. -/
theorem outer_break (env : Nat → Outcome) (M K : Nat) :
    ∀ fuel mIdx kIdx ctr pre m k r rest,
      0 < K →
      (outer env M K fuel mIdx kIdx ctr).2.2.2 =
        pre ++ .attempt m k (.resp r) :: rest →
      r.status ≠ 200 → r.status ≠ 401 →
      ∃ rest2, rest = .sleep :: rest2 ∧
        (rest2 = [] ∨ ∃ o t, rest2 = .attempt ((m + 1) % M) k o :: t) := by
  intro fuel
  induction fuel with
  | zero =>
    intro mIdx kIdx ctr pre m k r rest hK hsplit h200 h401
    simp only [outer] at hsplit
    exact absurd hsplit.symm (by simp)
  | succ n ih =>
    intro mIdx kIdx ctr pre m k r rest hK hsplit h200 h401
    have hbrk := inner_break_split env K mIdx K kIdx ctr
    have hmod := inner_events_model env K mIdx K kIdx ctr
    simp only [outer] at hsplit
    rcases hI : inner env K mIdx K kIdx ctr with ⟨res, k2, c2, evs⟩
    rw [hI] at hbrk hmod hsplit
    cases res with
    | success s =>
      simp only at hsplit
      rcases hbrk pre m k r rest hsplit h200 h401 with ⟨-, hres, -⟩
      exact absurd hres (by simp)
    | failed =>
      simp only at hsplit
      rcases List.append_eq_append_iff.mp hsplit with
        ⟨a2, hpre, hsfx⟩ | ⟨d2, hevs, hrest⟩
      · cases a2 with
        | nil =>
          exfalso
          simp only [List.nil_append, List.cons.injEq] at hsfx
          exact absurd hsfx.1 (by simp)
        | cons x a3 =>
          simp only [List.cons_append, List.cons.injEq] at hsfx
          rcases hsfx with ⟨-, hsfx⟩
          exact ih _ _ _ a3 m k r rest hK hsfx h200 h401
      · cases d2 with
        | nil =>
          exfalso
          simp only [List.nil_append, List.cons.injEq] at hrest
          exact absurd hrest.1 (by simp)
        | cons y d3 =>
          simp only [List.cons_append, List.cons.injEq] at hrest
          rcases hrest with ⟨hy, hrest⟩
          rw [← hy] at hevs
          rcases hbrk pre m k r d3 hevs h200 h401 with ⟨hd3, -, hk2⟩
          simp only at hk2
          subst hd3
          refine ⟨(outer env M K n ((mIdx + 1) % M) k2 c2).2.2.2, by simpa using hrest, ?_⟩
          have hmIdx : m = mIdx := by
            have hm2 := hmod (.attempt m k (.resp r)) (by simp [hevs])
            rcases hm2 with ⟨k3, o3, h3⟩
            exact ((Event.attempt.injEq _ _ _ _ _ _).mp h3).1
          cases n with
          | zero => left; simp [outer]
          | succ n2 =>
            right
            obtain ⟨o, t, hht⟩ := outer_head env M K n2 ((mIdx + 1) % M) k2 c2 hK
            subst hmIdx
            rw [← hk2]
            exact ⟨o, t, hht⟩

/-- Across one dispatch the attempted (model, credential) pairs are pairwise
distinct, and every attempted model index is one of the `fuel` successive
values of the model cursor. -/
theorem outer_pairs_nodup (env : Nat → Outcome) (M K : Nat) :
    ∀ fuel mIdx kIdx ctr, fuel ≤ M → mIdx < M → kIdx < K →
      (attemptPairs (outer env M K fuel mIdx kIdx ctr).2.2.2).Nodup ∧
      ∀ p ∈ attemptPairs (outer env M K fuel mIdx kIdx ctr).2.2.2,
        ∃ i, i < fuel ∧ p.1 = (mIdx + i) % M := by
  intro fuel
  induction fuel with
  | zero => intro mIdx kIdx ctr _ _ _; simp [outer, attemptPairs]
  | succ n ih =>
    intro mIdx kIdx ctr hfuel hm hk
    have hnd := inner_pairs_nodup env K mIdx K kIdx ctr hk (le_refl K)
    have hpr := inner_pairs env K mIdx K kIdx ctr hk
    have hkr := inner_key_range env K mIdx K kIdx ctr hk
    simp only [outer]
    rcases hI : inner env K mIdx K kIdx ctr with ⟨res, k2, c2, evs⟩
    rw [hI] at hnd hpr hkr
    simp only at hnd hpr hkr
    have hchunk : ∀ p ∈ attemptPairs evs, p.1 = mIdx := by
      intro p hp
      rw [hpr] at hp
      rcases List.mem_map.mp hp with ⟨j, -, hj⟩
      rw [← hj]
    cases res with
    | success s =>
      refine ⟨hnd, ?_⟩
      intro p hp
      exact ⟨0, Nat.succ_pos n, by
        rw [hchunk p hp, Nat.add_zero, Nat.mod_eq_of_lt hm]⟩
    | failed =>
      simp only
      have hM : 0 < M := lt_of_le_of_lt (Nat.zero_le mIdx) hm
      have hrec := ih ((mIdx + 1) % M) k2 c2 (by omega)
        (Nat.mod_lt _ hM) hkr
      rw [attemptPairs_append]
      have hsleep : attemptPairs (Event.sleep ::
          (outer env M K n ((mIdx + 1) % M) k2 c2).2.2.2) =
          attemptPairs (outer env M K n ((mIdx + 1) % M) k2 c2).2.2.2 := by
        simp [attemptPairs]
      rw [hsleep]
      have hrest_model : ∀ p ∈ attemptPairs
          (outer env M K n ((mIdx + 1) % M) k2 c2).2.2.2,
          ∃ i, i < n ∧ p.1 = (mIdx + (i + 1)) % M := by
        intro p hp
        rcases hrec.2 p hp with ⟨i, hi, hpi⟩
        refine ⟨i, hi, ?_⟩
        rw [hpi, Nat.mod_add_mod]
        congr 1
        omega
      constructor
      · refine List.Nodup.append hnd hrec.1 ?_
        intro p hp1 hp2
        rcases hrest_model p hp2 with ⟨i, hi, hpi⟩
        have hpm := hchunk p hp1
        rw [hpm] at hpi
        have h2 : (mIdx + (i + 1)) % M = (mIdx + 0) % M := by
          rw [← hpi, Nat.add_zero, Nat.mod_eq_of_lt hm]
        have h3 := Nat.ModEq.add_left_cancel' mIdx h2
        have h4 := (Nat.modEq_zero_iff_dvd).mp h3
        have h5 := Nat.le_of_dvd (by omega) h4
        omega
      · intro p hp
        rcases List.mem_append.mp hp with hp | hp
        · exact ⟨0, Nat.succ_pos n, by
            rw [hchunk p hp, Nat.add_zero, Nat.mod_eq_of_lt hm]⟩
        · rcases hrest_model p hp with ⟨i, hi, hpi⟩
          exact ⟨i + 1, by omega, hpi⟩

/-- The number of attempts of one dispatch is at most `fuel * K`. -/
theorem outer_pairs_len (env : Nat → Outcome) (M K : Nat) :
    ∀ fuel mIdx kIdx ctr,
      (attemptPairs (outer env M K fuel mIdx kIdx ctr).2.2.2).length ≤
        fuel * K := by
  intro fuel
  induction fuel with
  | zero => intro mIdx kIdx ctr; simp [outer, attemptPairs]
  | succ n ih =>
    intro mIdx kIdx ctr
    have hlen := le_trans
      (attemptPairs_length_le (inner env K mIdx K kIdx ctr).2.2.2)
      (inner_len env K mIdx K kIdx ctr)
    simp only [outer]
    rcases hI : inner env K mIdx K kIdx ctr with ⟨res, k2, c2, evs⟩
    rw [hI] at hlen
    simp only at hlen
    cases res with
    | success s =>
      simp only
      have : (n + 1) * K = n * K + K := Nat.succ_mul n K
      omega
    | failed =>
      simp only
      rw [attemptPairs_append]
      have hsleep : attemptPairs (Event.sleep ::
          (outer env M K n ((mIdx + 1) % M) k2 c2).2.2.2) =
          attemptPairs (outer env M K n ((mIdx + 1) % M) k2 c2).2.2.2 := by
        simp [attemptPairs]
      rw [hsleep]
      have hrec := ih ((mIdx + 1) % M) k2 c2
      have : (n + 1) * K = n * K + K := Nat.succ_mul n K
      simp only [List.length_append]
      omega

/-- Characterisation of `generate_text` when the client is available: the
output is the outer loop's text (or the template fallback), the two cursors
are written back into the state, and the trace is the outer loop's trace. -/
theorem generate_text_spec (env : Nat → Outcome) (b : Backend) (prompt : String)
    (hc : b.client = true) :
    generate_text env b prompt =
      ((match (outer env b.models.length b.api_keys.length b.models.length
          b.current_model_index b.current_api_key_index 0).1 with
        | some s => s
        | none => _fallback_response prompt),
       { b with
          current_model_index := (outer env b.models.length b.api_keys.length
            b.models.length b.current_model_index b.current_api_key_index 0).2.1,
          current_api_key_index := (outer env b.models.length b.api_keys.length
            b.models.length b.current_model_index b.current_api_key_index 0).2.2.1 },
       (outer env b.models.length b.api_keys.length b.models.length
          b.current_model_index b.current_api_key_index 0).2.2.2) := by
  unfold generate_text
  rw [hc]
  rcases hO : outer env b.models.length b.api_keys.length b.models.length
      b.current_model_index b.current_api_key_index 0 with ⟨res, m2, k2, evs⟩
  cases res <;> simp

/-- The trace of any call satisfies the adjacency relation: two directly
adjacent attempts share the model cursor and advance the credential cursor
by one modulo `K`. -/
theorem generate_chain (env : Nat → Outcome) (b : Backend) (prompt : String) :
    List.Chain' (AdjRel b.api_keys.length) (generate_text env b prompt).2.2 := by
  by_cases hc : b.client
  · rw [generate_text_spec env b prompt hc]
    exact outer_chain env _ _ _ _ _ _
  · have hc' : b.client = false := by simpa using hc
    unfold generate_text
    rw [hc']
    simp

/-- Claim C6: with an empty credential pool, `_initialize_client` leaves
`self.client` unset, and `generate_text` fails immediately with the
configuration-error sentinel (`"OpenRouter client not available"`), performs
no completion attempt (empty trace), and mutates neither cursor (the state
is returned unchanged). -/
theorem claim_C6 (models : List String) (test : Nat → Bool)
    (env : Nat → Outcome) (prompt : String) :
    (mkBackend [] models test).client = false ∧
    generate_text env (mkBackend [] models test) prompt =
      (_client_not_available, mkBackend [] models test, []) := by
  exact ⟨rfl, rfl⟩

/-- Claim C10: `switch_model b i` returns `True` and sets the model cursor
to `i` exactly when `0 <= i < len(models)`; otherwise it returns `False`
and leaves the whole state unchanged. -/
theorem claim_C10 (b : Backend) (i : Int) :
    ((switch_model b i).1 = true ↔ 0 ≤ i ∧ i < (b.models.length : Int)) ∧
    ((switch_model b i).1 = true →
      (switch_model b i).2 = { b with current_model_index := i.toNat }) ∧
    ((switch_model b i).1 = false → (switch_model b i).2 = b) := by
  unfold switch_model
  split
  · next h => exact ⟨by simp [h], fun _ => rfl, by simp⟩
  · next h => exact ⟨by simp [h], by simp, fun _ => rfl⟩

/-- Witness for C10 at concrete inputs: index 5 is rejected leaving the
fixture unchanged, index 1 is accepted. -/
theorem claim_C10_witness :
    (switch_model twoByTwo 5).2 = twoByTwo ∧ (switch_model twoByTwo 1).1 = true :=
  ⟨(claim_C10 twoByTwo 5).2.2 (by decide),
   (claim_C10 twoByTwo 1).1.mpr (by decide)⟩

/-- Claim C8 (amended): `_fallback_response` is a pure first-match-wins
keyword router, but a prompt containing "analyze" reaches the gap-analysis
template only when no earlier keyword rule (sections/create/vex/"en"/
notebook/draft/rewrite/improve/question/ask) matches first; prompts matching
no rule at all get the generic default response. -/
theorem claim_C8_amended (p : String) (hE : matchesEarlierRule p = false) :
    (strIn "analyze" (pyLower p) = true →
      _fallback_response p = _analyze_gaps_template) ∧
    (strIn "analyze" (pyLower p) = false → strIn "gap" (pyLower p) = false →
      _fallback_response p = _default_fallback_response) := by
  simp only [matchesEarlierRule, Bool.or_eq_false_iff] at hE
  obtain ⟨⟨⟨⟨⟨⟨⟨⟨⟨⟨⟨⟨h1, h2⟩, h3⟩, h4⟩, h5⟩, h6⟩, h7⟩, h8⟩, hD⟩, h9⟩,
    h10⟩, h11⟩, h12⟩ := hE
  constructor
  · intro ha
    simp [_fallback_response, h1, h2, h3, h4, h5, h6, h7, h8, hD, h9, h10,
      h11, h12, ha]
  · intro ha hg
    simp [_fallback_response, h1, h2, h3, h4, h5, h6, h7, h8, hD, h9, h10,
      h11, h12, ha, hg]

/-- Counterexample to C8 as stated: the prompt "analyze the document"
contains "analyze", yet `_fallback_response` returns the generic VEX
template, not the gap-analysis-report template, because the word "document"
contains the earlier keyword "en" and first match wins. -/
theorem claim_C8_counterexample :
    strIn "analyze" (pyLower "analyze the document") = true ∧
    strIn "en" (pyLower "analyze the document") = true ∧
    _fallback_response "analyze the document" = _vex_generic_response ∧
    _vex_generic_response ≠ _analyze_gaps_template := by
  refine ⟨rfl, rfl, rfl, by decide⟩

/-- Witness for C8 at a concrete input: the bare prompt "analyze" matches no
earlier rule and is routed to the gap-analysis template. -/
theorem claim_C8_witness :
    _fallback_response "analyze" = _analyze_gaps_template :=
  (claim_C8_amended "analyze" (by decide)).1 (by decide)

/-- Counterexample to C1 as stated: on the fixture, attempt 0 (model m1,
credential k1) raises a transport error; the dispatcher does not advance the
model cursor — the very next attempt reuses model index 0 with the next
credential index 1, and the call succeeds there. -/
theorem claim_C1_counterexample :
    generate_text envNetThenOk twoByTwo "p" =
      ("x", { twoByTwo with current_api_key_index := 1 },
       [.attempt 0 0 .exn,
        .attempt 0 1 (.resp ⟨200, .choices ["x"]⟩)]) := by
  decide

/-- Claim C1 (amended): only an attempt failing with a non-200, non-401 HTTP
status `break`s the credential loop: the dispatcher then sleeps and the next
attempt (if any) targets model `(m+1) % M` with the credential cursor
unchanged.  A network/transport error instead advances the credential cursor
and retries the same model (see the counterexample). -/
theorem claim_C1_amended (env : Nat → Outcome) (b : Backend) (prompt : String)
    (pre : List Event) (m k : Nat) (r : HttpResp) (rest : List Event)
    (hK : 0 < b.api_keys.length)
    (hsplit : (generate_text env b prompt).2.2 =
      pre ++ .attempt m k (.resp r) :: rest)
    (h200 : r.status ≠ 200) (h401 : r.status ≠ 401) :
    ∃ rest2, rest = .sleep :: rest2 ∧
      (rest2 = [] ∨
        ∃ o t, rest2 = .attempt ((m + 1) % b.models.length) k o :: t) := by
  by_cases hc : b.client
  · rw [generate_text_spec env b prompt hc] at hsplit
    exact outer_break env b.models.length b.api_keys.length b.models.length
      b.current_model_index b.current_api_key_index 0 pre m k r rest hK
      hsplit h200 h401
  · have hc' : b.client = false := by simpa using hc
    unfold generate_text at hsplit
    rw [hc'] at hsplit
    simp at hsplit

/-- Witness for the amended C1 at a concrete input: after the 500 answer of
the first attempt the trace continues with a sleep and an attempt at model
`(0+1) % 2` with the same credential index 0. -/
theorem claim_C1_witness :
    ∃ rest2, ([Event.sleep,
        Event.attempt 1 0 (.resp ⟨500, .malformed⟩), Event.sleep] : List Event) =
        .sleep :: rest2 ∧
      (rest2 = [] ∨
        ∃ o t, rest2 = Event.attempt ((0 + 1) % 2) 0 o :: t) :=
  claim_C1_amended envAll500 twoByTwo "p" [] 0 0 ⟨500, .malformed⟩
    [Event.sleep, Event.attempt 1 0 (.resp ⟨500, .malformed⟩), Event.sleep]
    (by decide) (by decide) (by decide) (by decide)

/-- Counterexample to C2 as stated: with a single credential, a 401 on model
m1 exhausts the credential loop, so the next attempt targets model m2 — not
the same model. -/
theorem claim_C2_counterexample :
    generate_text envAuthThenOk oneKey "p" =
      ("hello", { oneKey with current_model_index := 1 },
       [.attempt 0 0 (.resp ⟨401, .malformed⟩),
        Event.sleep,
        .attempt 1 0 (.resp ⟨200, .choices ["hello"]⟩)]) := by
  decide

/-- Claim C2 (amended): a 401 advances the credential cursor by exactly one
modulo `K`, and whenever the very next attempt exists in the same credential
loop (no sleep between them) it targets the same model with that advanced
credential; the spec's example scenario holds verbatim. -/
theorem claim_C2_amended :
    (∀ (env : Nat → Outcome) (b : Backend) (prompt : String)
        (pre : List Event) (m k : Nat) (r : HttpResp) (m2 k2 : Nat)
        (o2 : Outcome) (rest : List Event),
      (generate_text env b prompt).2.2 =
        pre ++ .attempt m k (.resp r) :: .attempt m2 k2 o2 :: rest →
      r.status = 401 →
      m2 = m ∧ k2 = (k + 1) % b.api_keys.length) ∧
    generate_text envAuthThenOk twoByTwo "p" =
      ("hello", { twoByTwo with current_api_key_index := 1 },
       [.attempt 0 0 (.resp ⟨401, .malformed⟩),
        .attempt 0 1 (.resp ⟨200, .choices ["hello"]⟩)]) := by
  constructor
  · intro env b prompt pre m k r m2 k2 o2 rest hsplit _h401
    have hchain := generate_chain env b prompt
    rw [hsplit] at hchain
    have h2 := (List.chain'_append.mp hchain).2.1
    have h3 := (List.chain'_cons.mp h2).1
    exact h3 m k (.resp r) m2 k2 o2 rfl rfl
  · decide

/-- Witness for the amended C2 at a concrete input: in the fixture run the
attempt after the 401 keeps model index 0 and uses credential `(0+1) % 2`. -/
theorem claim_C2_witness : (0 : Nat) = 0 ∧ (1 : Nat) = (0 + 1) % 2 :=
  claim_C2_amended.1 envAuthThenOk twoByTwo "p" [] 0 0 ⟨401, .malformed⟩
    0 1 (.resp ⟨200, .choices ["hello"]⟩) [] (by decide) rfl

/-- Claim C3: when the client is available and no attempt of the run
produces a parseable 200 response, `generate_text` returns exactly the
Template Fallback Generator's output for the prompt — no per-attempt error
(auth, provider, network, protocol) reaches the caller. -/
theorem claim_C3 (env : Nat → Outcome) (b : Backend) (prompt : String)
    (hc : b.client = true)
    (hfail : ∀ e ∈ (generate_text env b prompt).2.2, attemptOk e = false) :
    (generate_text env b prompt).1 = _fallback_response prompt := by
  rw [generate_text_spec env b prompt hc] at hfail ⊢
  simp only at hfail ⊢
  rcases hres : (outer env b.models.length b.api_keys.length b.models.length
      b.current_model_index b.current_api_key_index 0).1 with _ | s
  · rfl
  · exfalso
    rcases outer_success_res env b.models.length b.api_keys.length
        b.models.length b.current_model_index b.current_api_key_index 0 s hres
      with ⟨m, k, o, c, hmem, hok, -⟩
    have hf := hfail (.attempt m k o) hmem
    rw [attemptOk] at hf
    rw [hok] at hf
    simp at hf

/-- Witness for C3 at a concrete input: with every attempt answered 500 the
fixture call returns the fallback text. -/
theorem claim_C3_witness :
    (generate_text envAll500 twoByTwo "p").1 = _fallback_response "p" :=
  claim_C3 envAll500 twoByTwo "p" rfl (by decide)

/-- Claim C4: one `generate_text` call performs at most `M * K` completion
attempts, and never tries the same (model, credential) pair twice; the
function is total by construction, so every call terminates with a string. -/
theorem claim_C4 (env : Nat → Outcome) (b : Backend) (prompt : String)
    (hm : b.current_model_index < b.models.length)
    (hk : b.current_api_key_index < b.api_keys.length) :
    (attemptPairs (generate_text env b prompt).2.2).length ≤
      b.models.length * b.api_keys.length ∧
    (attemptPairs (generate_text env b prompt).2.2).Nodup := by
  by_cases hc : b.client
  · rw [generate_text_spec env b prompt hc]
    simp only
    exact ⟨outer_pairs_len env b.models.length b.api_keys.length
        b.models.length b.current_model_index b.current_api_key_index 0,
      (outer_pairs_nodup env b.models.length b.api_keys.length
        b.models.length b.current_model_index b.current_api_key_index 0
        (le_refl _) hm hk).1⟩
  · have hc' : b.client = false := by simpa using hc
    unfold generate_text
    rw [hc']
    simp [attemptPairs]

/-- Witness for C4 at a concrete input: the all-500 fixture run makes 2
pairwise-distinct attempts, within the 2 * 2 budget. -/
theorem claim_C4_witness :
    (attemptPairs (generate_text envAll500 twoByTwo "p").2.2).length ≤ 2 * 2 ∧
    (attemptPairs (generate_text envAll500 twoByTwo "p").2.2).Nodup :=
  claim_C4 envAll500 twoByTwo "p" (by decide) (by decide)

/-- Claim C5: an attempt answered 200 with at least one choice ends the call
immediately — it is the last event of the trace and `generate_text` returns
the first choice's content trimmed; in particular if the very first attempt
succeeds, the whole call performs exactly one network call and leaves both
cursors untouched. -/
theorem claim_C5 :
    (∀ (env : Nat → Outcome) (b : Backend) (prompt : String) (m k : Nat)
        (o : Outcome) (c : String),
      b.client = true →
      .attempt m k o ∈ (generate_text env b prompt).2.2 →
      okContent o = some c →
      (generate_text env b prompt).1 = pyStrip c ∧
        ∃ pre, (generate_text env b prompt).2.2 = pre ++ [.attempt m k o]) ∧
    (∀ (env : Nat → Outcome) (b : Backend) (prompt : String) (c : String),
      b.client = true → 0 < b.models.length → 0 < b.api_keys.length →
      okContent (env 0) = some c →
      generate_text env b prompt = (pyStrip c, b,
        [.attempt b.current_model_index b.current_api_key_index (env 0)])) := by
  constructor
  · intro env b prompt m k o c hc hmem hok
    rw [generate_text_spec env b prompt hc] at hmem ⊢
    simp only at hmem ⊢
    rcases outer_success_mem env b.models.length b.api_keys.length
        b.models.length b.current_model_index b.current_api_key_index 0
        m k o c hmem hok with ⟨hres, pre, hpre⟩
    rw [hres]
    exact ⟨rfl, pre, hpre⟩
  · intro env b prompt c hc hM hK hok
    obtain ⟨M2, hM2⟩ : ∃ M2, b.models.length = M2 + 1 :=
      ⟨b.models.length - 1, by omega⟩
    obtain ⟨K2, hK2⟩ : ∃ K2, b.api_keys.length = K2 + 1 :=
      ⟨b.api_keys.length - 1, by omega⟩
    have hcl : classify (env 0) = .success c := (classify_success_iff _ _).mpr hok
    have hinner := @inner_step_success env (K2 + 1) b.current_model_index K2
      b.current_api_key_index 0 c hcl
    have houter : outer env (M2 + 1) (K2 + 1) (M2 + 1) b.current_model_index
        b.current_api_key_index 0 =
        (some (pyStrip c), b.current_model_index, b.current_api_key_index,
         [.attempt b.current_model_index b.current_api_key_index (env 0)]) := by
      simp only [outer]
      rw [hinner]
    rw [generate_text_spec env b prompt hc, hM2, hK2, houter]

/-- Witness for C5 at a concrete input: the first attempt returns 200 with
choice " hi ", so the call returns the trimmed "hi" after exactly one
attempt and the fixture state is unchanged. -/
theorem claim_C5_witness :
    generate_text envOk twoByTwo "p" =
      ("hi", twoByTwo, [.attempt 0 0 (.resp ⟨200, .choices [" hi "]⟩)]) :=
  claim_C5.2 envOk twoByTwo "p" " hi " rfl (by decide) (by decide) rfl

/-- Counterexample to C7 as stated: the two consecutive credential attempts
on the single model are directly adjacent in the trace — no 1-second sleep
separates them; the only sleep comes after the model's credential loop
ends. -/
theorem claim_C7_counterexample :
    generate_text envAllAuth oneModel "p" =
      (_fallback_response "p", oneModel,
       [.attempt 0 0 (.resp ⟨401, .malformed⟩),
        .attempt 0 1 (.resp ⟨401, .malformed⟩),
        Event.sleep]) := by
  decide

/-- Claim C7 (amended): the fixed 1-second delay is applied once per model
iteration, after that model's credential loop completes — never between two
consecutive credential attempts on the same model (adjacent attempts always
share the model cursor), and a run with no successful attempt sleeps exactly
`M` times, once per model. -/
theorem claim_C7_amended :
    (∀ (env : Nat → Outcome) (b : Backend) (prompt : String)
        (pre : List Event) (m k : Nat) (o : Outcome) (m2 k2 : Nat)
        (o2 : Outcome) (rest : List Event),
      (generate_text env b prompt).2.2 =
        pre ++ .attempt m k o :: .attempt m2 k2 o2 :: rest →
      m2 = m) ∧
    (∀ (env : Nat → Outcome) (b : Backend) (prompt : String),
      b.client = true →
      (∀ e ∈ (generate_text env b prompt).2.2, attemptOk e = false) →
      countSleeps (generate_text env b prompt).2.2 = b.models.length) := by
  constructor
  · intro env b prompt pre m k o m2 k2 o2 rest hsplit
    have hchain := generate_chain env b prompt
    rw [hsplit] at hchain
    have h2 := (List.chain'_append.mp hchain).2.1
    have h3 := (List.chain'_cons.mp h2).1
    exact (h3 m k o m2 k2 o2 rfl rfl).1
  · intro env b prompt hc hfail
    rw [generate_text_spec env b prompt hc] at hfail ⊢
    simp only at hfail ⊢
    rcases hres : (outer env b.models.length b.api_keys.length b.models.length
        b.current_model_index b.current_api_key_index 0).1 with _ | s
    · exact outer_sleeps_failed env b.models.length b.api_keys.length
        b.models.length b.current_model_index b.current_api_key_index 0 hres
    · exfalso
      rcases outer_success_res env b.models.length b.api_keys.length
          b.models.length b.current_model_index b.current_api_key_index 0 s
          hres with ⟨m, k, o, c, hmem, hok, -⟩
      have hf := hfail (.attempt m k o) hmem
      rw [attemptOk] at hf
      rw [hok] at hf
      simp at hf

/-- Witness for the amended C7 at a concrete input: the all-401 fixture run
on one model sleeps exactly once. -/
theorem claim_C7_witness :
    countSleeps (generate_text envAllAuth oneModel "p").2.2 = 1 :=
  claim_C7_amended.2 envAllAuth oneModel "p" rfl (by decide)

/-- No operation changes the two pools. -/
theorem applyOp_pools (b : Backend) (op : Op) :
    (applyOp b op).models = b.models ∧ (applyOp b op).api_keys = b.api_keys := by
  cases op with
  | gen env prompt =>
    simp only [applyOp]
    by_cases hc : b.client
    · rw [generate_text_spec env b prompt hc]
      exact ⟨rfl, rfl⟩
    · have hc' : b.client = false := by simpa using hc
      unfold generate_text
      rw [hc']
      simp
  | switch_to i =>
    simp only [applyOp, switch_model]
    split <;> simp

/-- One operation preserves in-range cursors. -/
theorem applyOp_range (b : Backend) (op : Op)
    (hm : b.current_model_index < b.models.length)
    (hk : b.current_api_key_index < b.api_keys.length) :
    (applyOp b op).current_model_index < (applyOp b op).models.length ∧
    (applyOp b op).current_api_key_index < (applyOp b op).api_keys.length := by
  have hpools := applyOp_pools b op
  rw [hpools.1, hpools.2]
  cases op with
  | gen env prompt =>
    simp only [applyOp]
    by_cases hc : b.client
    · rw [generate_text_spec env b prompt hc]
      exact ⟨outer_m_range env b.models.length b.api_keys.length
          b.models.length b.current_model_index b.current_api_key_index 0 hm,
        outer_k_range env b.models.length b.api_keys.length
          b.models.length b.current_model_index b.current_api_key_index 0 hk⟩
    · have hc' : b.client = false := by simpa using hc
      unfold generate_text
      rw [hc']
      exact ⟨hm, hk⟩
  | switch_to i =>
    simp only [applyOp, switch_model]
    split
    · next h =>
      refine ⟨?_, ?_⟩
      · show i.toNat < b.models.length
        omega
      · show b.current_api_key_index < b.api_keys.length
        exact hk
    · exact ⟨hm, hk⟩

/-- Claim C9: starting from in-range cursors, any sequence of
`generate_text` and `switch_model` operations leaves both cursors in
`[0, N)` of their (unchanged) pools. -/
theorem claim_C9 (ops : List Op) (b : Backend)
    (hm : b.current_model_index < b.models.length)
    (hk : b.current_api_key_index < b.api_keys.length) :
    (runOps b ops).current_model_index < (runOps b ops).models.length ∧
    (runOps b ops).current_api_key_index < (runOps b ops).api_keys.length := by
  induction ops generalizing b with
  | nil => exact ⟨hm, hk⟩
  | cons op ops ih =>
    simp only [runOps]
    have h1 := applyOp_range b op hm hk
    exact ih (applyOp b op) h1.1 h1.2

/-- Witness for C9 at a concrete input. -/
theorem claim_C9_witness :
    (runOps twoByTwo opsFixture).current_model_index <
      (runOps twoByTwo opsFixture).models.length ∧
    (runOps twoByTwo opsFixture).current_api_key_index <
      (runOps twoByTwo opsFixture).api_keys.length :=
  claim_C9 opsFixture twoByTwo (by decide) (by decide)

end Notebooker
